import Mathlib

/-
Shallow embedding of `src/include/delegate.hpp` (namespace `delg`).

Modelling choices:
- A `std::shared_ptr<bool>` liveness token is modelled by a natural-number
  token id living in a `TokenHeap`: `nextId` is the next fresh id and
  `alive` is the list of ids whose owning `observer` has not been
  destroyed.  A `std::weak_ptr<bool>` held by a registration entry is just
  the token id; `weak_ptr::expired()` is `!(heap.isAlive id)`.
- A `std::function<R(Args...)>` is a `Func α β`: its semantic content
  `fn : α → β` (the argument pack is one value of type `α`) plus
  `typeId : ℕ`, the value of `target_type().hash_code()`, which depends
  only on the callable's declared type.
- The mutex only serialises operations; in this sequential embedding each
  operation is an atomic function on the state, so the lock has no
  separate representation.
- `delegate::functions` is a `List (FunctionPair α β)`; mutation is
  explicit state passing (each operation returns the new list).
-/

set_option autoImplicit false

namespace delg

/-- Heap of liveness tokens minted by `observer` objects: `nextId` is the
next fresh id, `alive` the ids of tokens whose owner is still alive. -/
structure TokenHeap where
  nextId : Nat
  alive : List Nat
deriving Repr, DecidableEq

/-- A token is alive when its id is in the heap's alive list
(models `!weak_ptr::expired()` / a positive shared count). -/
def TokenHeap.isAlive (h : TokenHeap) (t : Nat) : Bool :=
  decide (t ∈ h.alive)

/-- Well-formedness: every live token id was minted, i.e. is below
`nextId`. -/
def TokenHeap.WF (h : TokenHeap) : Prop :=
  ∀ t ∈ h.alive, t < h.nextId

/-- `observer::observer()`: mint a fresh token (`valid =
make_shared<bool>(true)`); returns the new token id and heap. -/
def mkObserver (h : TokenHeap) : Nat × TokenHeap :=
  (h.nextId, ⟨h.nextId + 1, h.nextId :: h.alive⟩)

/-- Destruction of an `observer`: its `shared_ptr<bool> valid` is
released, so every weak reference to the token now reports expired. -/
def destroyObserver (h : TokenHeap) (t : Nat) : TokenHeap :=
  ⟨h.nextId, h.alive.filter (fun u => u ≠ t)⟩

/-- The operations that affect token lifetimes: constructing an
`observer` and destroying one. -/
inductive HeapOp where
  | mkObs : HeapOp
  | destroyObs : Nat → HeapOp

/-- Apply one lifetime operation to the token heap. -/
def TokenHeap.applyOp (h : TokenHeap) : HeapOp → TokenHeap
  | HeapOp.mkObs => (mkObserver h).2
  | HeapOp.destroyObs t => destroyObserver h t

/-- Run a sequence of lifetime operations. -/
def TokenHeap.runOps (h : TokenHeap) (ops : List HeapOp) : TokenHeap :=
  ops.foldl TokenHeap.applyOp h

/-- A `std::function<R(Args...)>` value: declared-type hash
(`target_type().hash_code()`) plus the callable's semantics. -/
structure Func (α β : Type) where
  typeId : Nat
  fn : α → β

/-- `delegate::hash`: `function.target_type().hash_code()`. -/
def hash {α β : Type} (f : Func α β) : Nat :=
  f.typeId

/-- `delegate::FunctionPair`: one callable plus the weak token
references of the observers supplied at registration. -/
structure FunctionPair (α β : Type) where
  function : Func α β
  observers : List Nat

/-- `FunctionPair::is_expired`: true iff some referenced token's weak
pointer has expired (its owner was destroyed). -/
def FunctionPair.is_expired {α β : Type} (p : FunctionPair α β) (h : TokenHeap) : Bool :=
  p.observers.any (fun t => !(h.isAlive t))

/-- `delegate::add(function, args...)`: build the weak-reference list
from the supplied observers' tokens and append a new `FunctionPair`.
No pruning of existing entries happens here. -/
def add {α β : Type} (functions : List (FunctionPair α β)) (f : Func α β)
    (obs : List Nat) : List (FunctionPair α β) :=
  functions ++ [⟨f, obs⟩]

/-- `delegate::remove(function)`: the erase–remove idiom drops every
entry whose callable has the same `target_type()` hash, keeping the
remaining entries in order. -/
def remove {α β : Type} (functions : List (FunctionPair α β)) (f : Func α β) :
    List (FunctionPair α β) :=
  functions.filter (fun p => !(hash p.function == hash f))

/-- `delegate::clear()`. -/
def clear {α β : Type} (_functions : List (FunctionPair α β)) : List (FunctionPair α β) :=
  []

/-- Loop body of `invoker::invoke` (value-returning specialization):
expired entries are erased without being called; each surviving entry is
called once with the arguments and its result appended. Returns the
surviving entry list and the collected results, both in registration
order. -/
def invokeLoop {α β : Type} (h : TokenHeap) (params : α) :
    List (FunctionPair α β) → List (FunctionPair α β) × List β
  | [] => ([], [])
  | p :: rest =>
    if p.is_expired h then
      invokeLoop h params rest
    else
      let r := invokeLoop h params rest
      (p :: r.1, p.function.fn params :: r.2)

/-- `invoker::invoke` (value-returning): lock, walk the sequence once,
return the collected results; the delegate keeps the surviving
entries. -/
def invoke {α β : Type} (h : TokenHeap) (params : α)
    (functions : List (FunctionPair α β)) : List (FunctionPair α β) × List β :=
  invokeLoop h params functions

/-- Loop body of `invoker<void, ...>::Invoke`: same walk, but results
are discarded; instead we record the call trace (which callable was
called, with which arguments). -/
def invokeVoidLoop {α β : Type} (h : TokenHeap) (params : α) :
    List (FunctionPair α β) → List (FunctionPair α β) × List (Func α β × α)
  | [] => ([], [])
  | p :: rest =>
    if p.is_expired h then
      invokeVoidLoop h params rest
    else
      let r := invokeVoidLoop h params rest
      (p :: r.1, (p.function, params) :: r.2)

/-- `invoker<void, ...>::Invoke`: early-returns on an empty registry,
otherwise walks the sequence erasing expired entries and calling
survivors, discarding results. -/
def invokeVoid {α β : Type} (h : TokenHeap) (params : α)
    (functions : List (FunctionPair α β)) :
    List (FunctionPair α β) × List (Func α β × α) :=
  if functions.isEmpty then
    (functions, [])
  else
    invokeVoidLoop h params functions

/-- Surviving-entry predicate used throughout: the entry is not
expired. -/
def survives {α β : Type} (h : TokenHeap) (p : FunctionPair α β) : Bool :=
  !(p.is_expired h)

/-- One public delegate operation (for frame reasoning about the token
heap). -/
inductive DelegateOp (α β : Type) where
  | addOp : Func α β → List Nat → DelegateOp α β
  | removeOp : Func α β → DelegateOp α β
  | clearOp : DelegateOp α β
  | invokeOp : α → DelegateOp α β

/-- Combined state: the token heap plus one delegate's registry. -/
structure DelegateState (α β : Type) where
  heap : TokenHeap
  functions : List (FunctionPair α β)

/-- Apply one public delegate operation.  The registry stores only weak
references: the token heap is read (by `invoke`'s expiry checks) but
never written. -/
def DelegateState.apply {α β : Type} (s : DelegateState α β) :
    DelegateOp α β → DelegateState α β
  | DelegateOp.addOp f obs => ⟨s.heap, add s.functions f obs⟩
  | DelegateOp.removeOp f => ⟨s.heap, remove s.functions f⟩
  | DelegateOp.clearOp => ⟨s.heap, clear s.functions⟩
  | DelegateOp.invokeOp p => ⟨s.heap, (invoke s.heap p s.functions).1⟩

/-- `delegate_value<T>`: wraps a value of `T` over a
`delegate<void(T)>` (field `value` plus the inherited registry). -/
structure delegate_value (T : Type) where
  value : T
  functions : List (FunctionPair T Unit)

/-- `delegate_value::get()`. -/
def delegate_value.get {T : Type} (dv : delegate_value T) : T :=
  dv.value

/-- `delegate_value::operator=(T value)`: the parameter `value` shadows
the member `value`, so the statement `value = value;` self-assigns the
parameter and leaves the member unchanged; `invoke(value)` is then
called with the (unchanged) parameter. Returns the new wrapper state
and the call trace of the void invocation. -/
def delegate_value.assign {T : Type} (h : TokenHeap) (dv : delegate_value T)
    (v : T) : delegate_value T × List (Func T Unit × T) :=
  let r := invokeVoid h v dv.functions
  (⟨dv.value, r.1⟩, r.2)

end delg

/-- Heap in which token 0 was minted and its owner destroyed. -/
def c2Heap : delg.TokenHeap := ⟨1, []⟩

/-- Entry whose observer token 0 is dead, hence expired in `c2Heap`. -/
def c2Expired : delg.FunctionPair Int Int := ⟨⟨0, fun x => x⟩, [0]⟩

/-- Live entry with no observers. -/
def c2Live : delg.FunctionPair Int Int := ⟨⟨1, fun x => x + 1⟩, []⟩

/-- A fresh callable to register after the observer died. -/
def c2NewFunc : delg.Func Int Int := ⟨2, fun x => x⟩

/-- Closure `x ↦ x + 1` with declared-type hash 5. -/
def c5FuncA : delg.Func Int Int := ⟨5, fun x => x + 1⟩

/-- A distinct closure `x ↦ x * 100` that shares declared-type hash 5. -/
def c5FuncB : delg.Func Int Int := ⟨5, fun x => x * 100⟩

/-- Entry wrapping `c5FuncB`, with no observers. -/
def c5PairB : delg.FunctionPair Int Int := ⟨c5FuncB, []⟩

/-- Entry whose declared-type hash 7 differs from the removed type. -/
def c9Keep : delg.FunctionPair Int Int := ⟨⟨7, fun x => x - 1⟩, []⟩

/-- Entry sharing the removed declared-type hash 5. -/
def c9Drop : delg.FunctionPair Int Int := ⟨⟨5, fun x => x⟩, []⟩

/-- Callable of declared-type hash 5 passed to `remove`. -/
def c9F : delg.Func Int Int := ⟨5, fun x => x + 2⟩

/-- Concrete subscriber of a `delegate_value Int`. -/
def c6Entry : delg.FunctionPair Int Unit := ⟨⟨0, fun _ => ()⟩, []⟩

/-- Wrapper holding 0 with one subscriber. -/
def c6Wrapper : delg.delegate_value Int := ⟨0, [c6Entry]⟩

namespace delg

theorem invokeLoop_eq_filter_map {α β : Type} (h : TokenHeap) (params : α)
    (es : List (FunctionPair α β)) :
    invokeLoop h params es =
      (es.filter (survives h), (es.filter (survives h)).map (fun p => p.function.fn params)) := by
  induction es with
  | nil => rfl
  | cons p rest ih =>
    by_cases hp : p.is_expired h
    · simp [invokeLoop, hp, List.filter_cons, survives, ih]
    · simp [invokeLoop, hp, List.filter_cons, survives, ih]

theorem invokeVoidLoop_eq_filter_map {α β : Type} (h : TokenHeap) (params : α)
    (es : List (FunctionPair α β)) :
    invokeVoidLoop h params es =
      (es.filter (survives h), (es.filter (survives h)).map (fun p => (p.function, params))) := by
  induction es with
  | nil => rfl
  | cons p rest ih =>
    by_cases hp : p.is_expired h
    · simp [invokeVoidLoop, hp, List.filter_cons, survives, ih]
    · simp [invokeVoidLoop, hp, List.filter_cons, survives, ih]

theorem applyOp_preserves_dead (h : TokenHeap) (op : HeapOp) (t : Nat)
    (hlt : t < h.nextId) (hdead : h.isAlive t = false) :
    t < (h.applyOp op).nextId ∧ (h.applyOp op).isAlive t = false := by
  have ht : t ∉ h.alive := by simpa [TokenHeap.isAlive] using hdead
  cases op with
  | mkObs =>
    refine ⟨Nat.lt_succ_of_lt hlt, ?_⟩
    have hne : t ≠ h.nextId := Nat.ne_of_lt hlt
    simp [TokenHeap.applyOp, mkObserver, TokenHeap.isAlive, hne, ht]
  | destroyObs u =>
    refine ⟨hlt, ?_⟩
    simp only [TokenHeap.applyOp, destroyObserver, TokenHeap.isAlive,
      decide_eq_false_iff_not, List.mem_filter]
    rintro ⟨hmem, -⟩
    exact ht hmem

theorem runOps_preserves_dead (t : Nat) (ops : List HeapOp) :
    ∀ (h : TokenHeap), t < h.nextId → h.isAlive t = false →
      (h.runOps ops).isAlive t = false := by
  induction ops with
  | nil => intro h _ hdead; exact hdead
  | cons op rest ih =>
    intro h hlt hdead
    have hstep := applyOp_preserves_dead h op t hlt hdead
    exact ih (h.applyOp op) hstep.1 hstep.2

theorem destroyObserver_kills (h : TokenHeap) (t : Nat) :
    (destroyObserver h t).isAlive t = false := by
  simp [destroyObserver, TokenHeap.isAlive, List.mem_filter]

end delg

/-- C1: for every value-returning delegate and every argument, `invoke`
walks the entries once, erases each expired entry without calling it,
calls each surviving entry exactly once with the given arguments and
returns their results in registration order; in particular a delegate
over `int(int)` holding `x -> x+1` then `x -> x*2` (no observers)
returns `[4, 6]` on `invoke(3)`. -/
theorem C1_invoke_value_aggregation :
    (∀ (α β : Type) (h : delg.TokenHeap) (params : α)
        (es : List (delg.FunctionPair α β)),
        delg.invoke h params es =
          (es.filter (delg.survives h),
           (es.filter (delg.survives h)).map (fun p => p.function.fn params)))
    ∧ (delg.invoke ⟨0, []⟩ (3 : Int)
        [⟨⟨0, fun x => x + 1⟩, []⟩, ⟨⟨1, fun x => x * 2⟩, []⟩]).2 = [4, 6] := by
  constructor
  · intro α β h params es
    exact delg.invokeLoop_eq_filter_map h params es
  · rfl

/-- C2 counterexample: the claim says the next `add` after the
observer's destruction structurally removes the expired entry, but
`delegate::add` only appends: after `add` the expired entry is still in
the registry and the size is 2, not 1. -/
theorem C2_add_does_not_evict :
    c2Expired.is_expired c2Heap = true
    ∧ delg.add [c2Expired] c2NewFunc [] = [c2Expired, ⟨c2NewFunc, []⟩]
    ∧ c2Expired ∈ delg.add [c2Expired] c2NewFunc []
    ∧ (delg.add [c2Expired] c2NewFunc []).length = 2 :=
  ⟨rfl, rfl, List.mem_cons_self _ _, rfl⟩

/-- C2 (amended): for every entry whose observer token has died, the
next `invoke` excludes it from execution and from the aggregated
results and structurally removes it from the registry; `add` performs
no eviction (it only appends, see the counterexample). -/
theorem C2_invoke_evicts_expired :
    ∀ (α β : Type) (h : delg.TokenHeap) (params : α)
      (es : List (delg.FunctionPair α β)) (p : delg.FunctionPair α β),
      p ∈ es → p.is_expired h = true →
        ¬ p ∈ (delg.invoke h params es).1
        ∧ (delg.invoke h params es).1 = es.filter (delg.survives h)
        ∧ (delg.invoke h params es).2 =
            (es.filter (delg.survives h)).map (fun q => q.function.fn params) := by
  intro α β h params es p _hmem hexp
  have hchar := delg.invokeLoop_eq_filter_map h params es
  refine ⟨?_, ?_, ?_⟩
  · intro hcontra
    rw [delg.invoke, hchar] at hcontra
    rcases List.mem_filter.mp hcontra with ⟨-, hpred⟩
    rw [delg.survives, hexp] at hpred
    simp at hpred
  · rw [delg.invoke, hchar]
  · rw [delg.invoke, hchar]

/-- C2 witness: concrete instance of the amended claim. -/
theorem C2_invoke_evicts_expired_witness :
    c2Expired ∈ [c2Expired, c2Live]
    ∧ c2Expired.is_expired c2Heap = true
    ∧ ¬ c2Expired ∈ (delg.invoke c2Heap (0 : Int) [c2Expired, c2Live]).1 :=
  ⟨List.mem_cons_self _ _, rfl,
   (C2_invoke_evicts_expired Int Int c2Heap 0 [c2Expired, c2Live] c2Expired
     (List.mem_cons_self _ _) rfl).1⟩

/-- C3: constructing an `observer` mints a fresh token (not previously
alive) that is valid; once the observer is destroyed, the token reports
gone and stays gone under every later sequence of observer
constructions and destructions. -/
theorem C3_observer_lifecycle :
    ∀ (h : delg.TokenHeap), h.WF →
      (h.isAlive (delg.mkObserver h).1 = false
        ∧ (delg.mkObserver h).2.isAlive (delg.mkObserver h).1 = true)
      ∧ ∀ (h2 : delg.TokenHeap), (delg.mkObserver h).1 < h2.nextId →
          ∀ (ops : List delg.HeapOp),
            ((delg.destroyObserver h2 (delg.mkObserver h).1).runOps ops).isAlive
              (delg.mkObserver h).1 = false := by
  intro h hWF
  constructor
  · constructor
    · have hfresh : h.nextId ∉ h.alive := fun hmem => Nat.lt_irrefl _ (hWF _ hmem)
      simpa [delg.mkObserver, delg.TokenHeap.isAlive] using hfresh
    · simp [delg.mkObserver, delg.TokenHeap.isAlive]
  · intro h2 hlt ops
    refine delg.runOps_preserves_dead _ ops _ ?_ ?_
    · simpa [delg.destroyObserver] using hlt
    · exact delg.destroyObserver_kills h2 _

/-- C3 witness: mint token 0 from the empty heap, destroy it in a later
heap, run one more observer construction; the token stays dead. -/
theorem C3_observer_lifecycle_witness :
    delg.TokenHeap.WF ⟨0, []⟩
    ∧ ((delg.destroyObserver ⟨1, [0]⟩ 0).runOps [delg.HeapOp.mkObs]).isAlive 0 = false :=
  ⟨by simp [delg.TokenHeap.WF],
   (C3_observer_lifecycle ⟨0, []⟩ (by simp [delg.TokenHeap.WF])).2 ⟨1, [0]⟩
     (by decide) [delg.HeapOp.mkObs]⟩

/-- C4: an entry is expired iff at least one of its weak token
references is no longer resolvable to a live token; an entry with an
empty token list is never expired. -/
theorem C4_is_expired_iff :
    ∀ (α β : Type) (h : delg.TokenHeap) (p : delg.FunctionPair α β),
      (p.is_expired h = true ↔ ∃ t ∈ p.observers, h.isAlive t = false)
      ∧ (p.observers = [] → p.is_expired h = false) := by
  intro α β h p
  constructor
  · simp [delg.FunctionPair.is_expired, List.any_eq_true]
  · intro hnil
    simp [delg.FunctionPair.is_expired, hnil]

/-- C4 witness: a concrete observer-free entry is not expired. -/
theorem C4_is_expired_iff_witness :
    (⟨⟨0, fun x => x⟩, []⟩ : delg.FunctionPair Int Int).observers = []
    ∧ (⟨⟨0, fun x => x⟩, []⟩ : delg.FunctionPair Int Int).is_expired ⟨0, []⟩ = false :=
  ⟨rfl, (C4_is_expired_iff Int Int ⟨0, []⟩ ⟨⟨0, fun x => x⟩, []⟩).2 rfl⟩

/-- C5: `remove` erases every entry whose callable has the same
declared-type hash as the argument, regardless of the callable's
captured state or semantics. -/
theorem C5_remove_matches_declared_type :
    ∀ (α β : Type) (es : List (delg.FunctionPair α β)) (f : delg.Func α β)
      (p : delg.FunctionPair α β),
      p ∈ es → delg.hash p.function = delg.hash f → ¬ p ∈ delg.remove es f := by
  intro α β es f p _hmem hhash hcontra
  rcases List.mem_filter.mp hcontra with ⟨-, hpred⟩
  simp [hhash] at hpred

/-- C5 witness: removing by `c5FuncA` also erases the distinct closure
`c5FuncB`, which merely shares `c5FuncA`'s declared type. -/
theorem C5_remove_matches_declared_type_witness :
    c5PairB ∈ [c5PairB] ∧ delg.hash c5PairB.function = delg.hash c5FuncA
    ∧ ¬ c5PairB ∈ delg.remove [c5PairB] c5FuncA :=
  ⟨List.mem_cons_self _ _, rfl,
   C5_remove_matches_declared_type Int Int [c5PairB] c5FuncA c5PairB
     (List.mem_cons_self _ _) rfl⟩

/-- C6: evaluation of the code at the failing input.  Assigning 5 to a
wrapper holding 0 does invoke the delegate exactly once with 5, but the
stored value stays 0: `get()` immediately after the assignment returns
0, not 5, because `operator=`'s parameter shadows the member and
`value = value;` self-assigns the parameter. -/
theorem C6_assignment_does_not_store :
    (c6Wrapper.assign ⟨0, []⟩ 5).1.get = 0
    ∧ ((c6Wrapper.assign ⟨0, []⟩ 5).2.map Prod.snd) = [5]
    ∧ (c6Wrapper.assign ⟨0, []⟩ 5).1.get ≠ 5 :=
  ⟨rfl, rfl, by decide⟩

/-- C7: invoking a void delegate whose entry sequence is empty performs
no work: no callable is called (empty trace) and nothing is erased (the
sequence stays empty). -/
theorem C7_void_invoke_empty :
    ∀ (α β : Type) (h : delg.TokenHeap) (params : α),
      delg.invokeVoid h params ([] : List (delg.FunctionPair α β)) = ([], []) := by
  intro α β h params
  rfl

/-- C8: `add` with an observer whose token is already dead still
appends the entry; that entry is expired, and the next `invoke` behaves
exactly as if the entry were absent: it is erased without its callable
being called and contributes nothing to the results. -/
theorem C8_add_dead_observer :
    ∀ (α β : Type) (h : delg.TokenHeap) (es : List (delg.FunctionPair α β))
      (f : delg.Func α β) (t : Nat) (params : α),
      h.isAlive t = false →
        delg.add es f [t] = es ++ [⟨f, [t]⟩]
        ∧ (delg.FunctionPair.mk f [t]).is_expired h = true
        ∧ delg.invoke h params (delg.add es f [t]) = delg.invoke h params es := by
  intro α β h es f t params hdead
  have hexp : (delg.FunctionPair.mk f [t]).is_expired h = true := by
    simp [delg.FunctionPair.is_expired, hdead]
  refine ⟨rfl, hexp, ?_⟩
  rw [delg.invoke, delg.invoke, delg.invokeLoop_eq_filter_map, delg.invokeLoop_eq_filter_map,
    delg.add, List.filter_append]
  have hdrop : List.filter (delg.survives h) [(⟨f, [t]⟩ : delg.FunctionPair α β)] = [] := by
    simp [List.filter, delg.survives, hexp]
  rw [hdrop, List.append_nil]

/-- C8 witness: concrete dead-token registration. -/
theorem C8_add_dead_observer_witness :
    (⟨1, []⟩ : delg.TokenHeap).isAlive 0 = false
    ∧ delg.invoke (⟨1, []⟩ : delg.TokenHeap) (7 : Int)
        (delg.add ([] : List (delg.FunctionPair Int Int)) ⟨3, fun x => x⟩ [0])
      = delg.invoke (⟨1, []⟩ : delg.TokenHeap) (7 : Int) [] :=
  ⟨rfl,
   (C8_add_dead_observer Int Int ⟨1, []⟩ [] ⟨3, fun x => x⟩ 0 7 rfl).2.2⟩

/-- C9: `remove` keeps every entry whose declared-type hash differs
from the argument's, unchanged, and the survivors form a sublist of the
original sequence (relative registration order preserved). -/
theorem C9_remove_frame :
    ∀ (α β : Type) (es : List (delg.FunctionPair α β)) (f : delg.Func α β),
      (∀ p ∈ es, delg.hash p.function ≠ delg.hash f → p ∈ delg.remove es f)
      ∧ (delg.remove es f).Sublist es := by
  intro α β es f
  constructor
  · intro p hmem hne
    refine List.mem_filter.mpr ⟨hmem, ?_⟩
    simpa [delg.hash] using hne
  · exact List.filter_sublist es

/-- C9 witness: the differently-typed entry survives removal. -/
theorem C9_remove_frame_witness :
    c9Keep ∈ [c9Drop, c9Keep]
    ∧ delg.hash c9Keep.function ≠ delg.hash c9F
    ∧ c9Keep ∈ delg.remove [c9Drop, c9Keep] c9F :=
  ⟨List.mem_cons_of_mem _ (List.mem_cons_self _ _), by decide,
   (C9_remove_frame Int Int [c9Drop, c9Keep] c9F).1 c9Keep
     (List.mem_cons_of_mem _ (List.mem_cons_self _ _)) (by decide)⟩

/-- C10: no delegate operation (add, remove, clear, invoke) writes the
token heap: the heap after any operation is the heap before it, so
every live observer token stays valid and tokens change liveness only
through observer destruction. -/
theorem C10_delegate_ops_preserve_tokens :
    ∀ (α β : Type) (s : delg.DelegateState α β) (op : delg.DelegateOp α β) (t : Nat),
      (s.apply op).heap = s.heap
      ∧ (s.apply op).heap.isAlive t = s.heap.isAlive t := by
  intro α β s op t
  cases op <;> exact ⟨rfl, rfl⟩
